import Mathlib

/-
Verification of the xspf_tools repository (xspf_parser_jsl-rs).

Shallow embedding of the Rust sources:
  * track_name_info.rs : TrackType, TrackExtension, FilenameInfoComponents
    (the final iteration of the filename decomposition engine), namespace
    TrackNameInfo below.
  * xspf_parser.rs : its own (older) copies of TrackType / TrackExtension /
    FilenameInfoComponents, plus TrackDuration, Track, XspfPlaylist,
    namespace XspfParser below.
  * main.rs : call sites of total_duration / track_index_width (the methods
    themselves are not among the source files; they are modelled from the
    spec, see their doc comments).

Modelling conventions:
  * Rust panics (unwrap on None / Err) are modelled by Option.none or by the
    Outcome.panic constructor; Result is modelled by Except / Outcome.
  * The two compiled regexes are modelled by hand-written deterministic
    parsers that reproduce the leftmost-first backtracking behaviour of the
    anchored patterns; the character classes \d and [[:alpha:]] are modelled
    by Char.isDigit and Char.isAlpha (the patterns coincide with the Rust
    regex crate on ASCII input), and the metacharacter . excludes the
    newline character, exactly as in the regex crate.
  * str::to_lowercase is modelled by mapping Char.toLower over the
    characters (it coincides with Rust on ASCII input).
-/

/- ********************************************************************** -/
/- Generic string helpers -/

/-- Decimal value of a digit string, as Rust's integer parsing computes it. -/
def digitsToNat (ds : List Char) : Nat :=
  ds.foldl (fun a c => 10 * a + (c.toNat - 48)) 0

/-- Embeds `vcap["index"].parse::<i32>().unwrap_or_default()` applied to a
capture consisting of decimal digits: the parse succeeds exactly when the
value fits in an i32, and `unwrap_or_default` turns an overflow into 0. -/
def parseI32OrDefault (ds : List Char) : Int :=
  if digitsToNat ds ≤ 2147483647 then (digitsToNat ds : Int) else 0

/-- Embeds `str::strip_prefix`-like prefix removal (the source uses
`uri.starts_with(..)` followed by slicing off the matched characters). -/
def chopLeading : List Char → List Char → Option (List Char)
  | [], s => some s
  | _ :: _, [] => none
  | p :: ps, c :: cs => if p = c then chopLeading ps cs else none

/-- Embeds Rust's `str::to_lowercase` (coincides on ASCII input). -/
def rustLowercase (s : String) : String :=
  String.mk (s.data.map Char.toLower)

/-- True when no character is a newline; the regex metacharacter `.` cannot
match a newline, so a `(?P<id>.+)` capture must satisfy this. -/
def noNl (cs : List Char) : Bool :=
  cs.all (fun c => c != '\n')

/-- Embeds `String::split('/')`: splitting on every slash, keeping empty
segments, always yielding at least one segment. -/
def splitSlash : List Char → List (List Char)
  | [] => [[]]
  | c :: rest =>
    match splitSlash rest with
    | [] => [[]]
    | s :: ss => if c = '/' then [] :: s :: ss else (c :: s) :: ss

/-- Embeds `std::path::Path::file_name` for a single path component (the
constructors only ever receive the part of a path after the last slash):
empty strings and the special components "." and ".." have no file name. -/
def fileNameOf (f : List Char) : Option (List Char) :=
  if f.isEmpty || (f == ['.']) || (f == ['.', '.']) then none else some f

/-- Embeds the `Path::file_stem` / `Path::extension` pair for a file name:
the name is split at its last dot, except that a name with no dot, or a
name whose only dot is its leading character, has no extension. -/
def splitAtLastDot (f : List Char) : List Char × Option (List Char) :=
  let extRev := (f.reverse).takeWhile (fun c => c != '.')
  let rest := (f.reverse).dropWhile (fun c => c != '.')
  match rest with
  | [] => (f, none)
  | _ :: stemRev =>
    if stemRev.isEmpty then (f, none) else (stemRev.reverse, some extRev.reverse)

/-- True exactly when the file name carries a non-empty dot-separated
extension in the sense of `Path::extension`. -/
def hasProperExt (f : List Char) : Bool :=
  match (splitAtLastDot f).2 with
  | some e => !(e.isEmpty)
  | none => false

/- ********************************************************************** -/
/- The two regular expressions, as deterministic parsers -/

/-- Captures produced by the violin-layering regular expressions: the digit
run bound to `index` and the optional title bound to `id`. The `variant`
capture is matched but never read by the sources, so it is not recorded. -/
structure VlnCaps where
  index : List Char
  id : Option (List Char)
  deriving DecidableEq, Repr

/-- Common tail of the violin-layering patterns, after the leading token:
`(?P<index>\d+)(?P<variant>[[:alpha:]]?)(?:(?:-(?P<id>.+))?)$`.
The digit run is maximal (any shorter run leaves a digit where the pattern
needs a letter, a dash or the end), the optional variant letter is consumed
greedily, and the optional `-title` suffix must reach the end of the stem
with a non-empty title free of newlines. -/
def vlnTail (r : List Char) : Option VlnCaps :=
  let ds := r.takeWhile Char.isDigit
  let t := r.dropWhile Char.isDigit
  if ds.isEmpty then none
  else
    match t with
    | [] => some ⟨ds, none⟩
    | c :: t2 =>
      if c = '-' then
        if t2.isEmpty || !(noNl t2) then none else some ⟨ds, some t2⟩
      else if c.isAlpha then
        match t2 with
        | [] => some ⟨ds, none⟩
        | d :: t3 =>
          if d = '-' && !(t3.isEmpty) && noNl t3 then some ⟨ds, some t3⟩
          else none
      else none

/-- Embeds RE_VIOLIN_LAYERING of track_name_info.rs:
`^(?:v|(?:(?:vln_layering|vln_improv)(?:-|_)))` followed by `vlnTail`.
The alternatives are tried in the pattern's order (leftmost-first). -/
def vlnCaptures (s : List Char) : Option VlnCaps :=
  ((chopLeading ("v").data s).bind vlnTail) <|>
  ((chopLeading ("vln_layering-").data s).bind vlnTail) <|>
  ((chopLeading ("vln_layering_").data s).bind vlnTail) <|>
  ((chopLeading ("vln_improv-").data s).bind vlnTail) <|>
  ((chopLeading ("vln_improv_").data s).bind vlnTail)

/-- Captures of RE_MUSE_SCORE:
`^(?P<date>\d{8})(?P<variant>[[:alpha:]]?)-(?P<index>\d+)-(?P<id>.+)$`.
The `date` capture is matched but not stored in FilenameInfoComponents. -/
structure MsCaps where
  date : List Char
  index : List Char
  id : List Char
  deriving DecidableEq, Repr

/-- Tail of RE_MUSE_SCORE after the date block and the first dash:
`(?P<index>\d+)-(?P<id>.+)$`. -/
def msTail (d8 r : List Char) : Option MsCaps :=
  let ds := r.takeWhile Char.isDigit
  let t := r.dropWhile Char.isDigit
  if ds.isEmpty then none
  else
    match t with
    | '-' :: id => if !(id.isEmpty) && noNl id then some ⟨d8, ds, id⟩ else none
    | _ => none

/-- Embeds RE_MUSE_SCORE (identical in track_name_info.rs and
xspf_parser.rs): eight digits, an optional variant letter (consumed
greedily, then the mandatory dash), the index digits, a dash, the title. -/
def msCaptures (s : List Char) : Option MsCaps :=
  let d8 := s.take 8
  let r := s.drop 8
  if d8.length = 8 && d8.all Char.isDigit then
    match r with
    | [] => none
    | c :: r2 =>
      if c = '-' then msTail d8 r2
      else if c.isAlpha then
        match r2 with
        | '-' :: r3 => msTail d8 r3
        | _ => none
      else none
  else none

/-- Embeds xspf_parser.rs's own RE_VIOLIN_LAYERING:
`^v(?P<index>\d+)(?P<variant>[[:alpha:]]?)-(?P<id>.+)$` — unlike the
track_name_info.rs pattern the title part is mandatory and there are no
long-form legacy spellings. -/
def xvlnCaptures (s : List Char) : Option (List Char × List Char) :=
  match chopLeading ("v").data s with
  | none => none
  | some r =>
    let ds := r.takeWhile Char.isDigit
    let t := r.dropWhile Char.isDigit
    if ds.isEmpty then none
    else
      match t with
      | [] => none
      | c :: t2 =>
        if c = '-' then
          if t2.isEmpty || !(noNl t2) then none else some (ds, t2)
        else if c.isAlpha then
          match t2 with
          | d :: t3 =>
            if d = '-' && !(t3.isEmpty) && noNl t3 then some (ds, t3) else none
          | [] => none
        else none

/- ********************************************************************** -/
/- track_name_info.rs -/

namespace TrackNameInfo

/-- Embeds `enum TrackType` of track_name_info.rs. -/
inductive TrackType where
  | UnknownType
  | ViolinLayering
  | MuseScore
  | Piano
  | Voice
  deriving DecidableEq, Repr

/-- Embeds `enum TrackExtension` of track_name_info.rs: the closed set of
recognized encodings, the open Unknown variant keeping the original text,
and the construction-time Placeholder. -/
inductive TrackExtension where
  | Placeholder
  | Unknown (s : String)
  | mp3
  | flac
  | ogg
  | m4a
  | mp4
  | mkv
  deriving DecidableEq, Repr

/-- Embeds `impl FromStr for TrackExtension` of track_name_info.rs: the
input is lowercased, then matched against the recognized names in the
source's order; the empty string is the dummy Err case and anything else
becomes Unknown carrying the original (not lowercased) string. -/
def TrackExtension.from_str (s : String) : Except String TrackExtension :=
  if rustLowercase s = "mp3" then .ok .mp3
  else if rustLowercase s = "flac" then .ok .flac
  else if rustLowercase s = "ogg" then .ok .ogg
  else if rustLowercase s = "m4a" then .ok .m4a
  else if rustLowercase s = "mp4" then .ok .mp4
  else if rustLowercase s = "mkv" then .ok .mkv
  else if rustLowercase s = "" then .error "No Extension?"
  else .ok (.Unknown s)

/-- Embeds `impl ToString for TrackExtension` of track_name_info.rs: the
Unknown payload is returned as is, every other variant renders as its
derived Debug name. -/
def TrackExtension.to_string : TrackExtension → String
  | .Unknown s => s
  | .Placeholder => "Placeholder"
  | .mp3 => "mp3"
  | .flac => "flac"
  | .ogg => "ogg"
  | .m4a => "m4a"
  | .mp4 => "mp4"
  | .mkv => "mkv"

/-- Embeds `struct FilenameInfoComponents` of track_name_info.rs. -/
structure FilenameInfoComponents where
  track_type : TrackType
  index : Int
  name : String
  extn : TrackExtension
  deriving DecidableEq, Repr

/-- Embeds `FilenameInfoComponents::from_file_stem` of track_name_info.rs:
try RE_VIOLIN_LAYERING, then RE_MUSE_SCORE, first match wins; a violin
match without an `id` capture names the track with the sentinel
"<Untitled>"; when nothing matches the stem itself becomes the name,
the index is 0 and the type is UnknownType. -/
def FilenameInfoComponents.from_file_stem (filename : String) : FilenameInfoComponents :=
  match vlnCaptures filename.data with
  | some vcap =>
    { track_type := .ViolinLayering
    , index := parseI32OrDefault vcap.index
    , name := (vcap.id.map String.mk).getD "<Untitled>"
    , extn := .Placeholder }
  | none =>
    match msCaptures filename.data with
    | some mcap =>
      { track_type := .MuseScore
      , index := parseI32OrDefault mcap.index
      , name := String.mk mcap.id
      , extn := .Placeholder }
    | none =>
      { track_type := .UnknownType
      , index := 0
      , name := filename
      , extn := .Placeholder }

/-- Embeds `FilenameInfoComponents::new` of track_name_info.rs. The Rust
code unwraps `Path::file_stem`, `Path::extension` and the extension parse;
each of those unwraps can panic, modelled here by `none`. -/
def FilenameInfoComponents.new (filename : String) : Option FilenameInfoComponents :=
  match fileNameOf filename.data with
  | none => none
  | some f =>
    match (splitAtLastDot f).2 with
    | none => none
    | some e =>
      match TrackExtension.from_str (String.mk e) with
      | .ok extn =>
        some { FilenameInfoComponents.from_file_stem (String.mk (splitAtLastDot f).1) with extn := extn }
      | .error _ => none

end TrackNameInfo

/- ********************************************************************** -/
/- The XML collaborator interface (minidom::Element, as consumed by the
sources: an element exposes its name, its text and its element children). -/

/-- Model of a parsed XML element, holding exactly the three capabilities
the sources use: `name()`, `text()` and `children()`. -/
inductive Element where
  | mk (name : String) (text : String) (children : List Element)

/-- The element's tag name. -/
def Element.name : Element → String
  | .mk n _ _ => n

/-- The element's text content. -/
def Element.text : Element → String
  | .mk _ t _ => t

/-- The element's child elements, in document order. -/
def Element.children : Element → List Element
  | .mk _ _ c => c

/-- Result of a Rust function that can return a value, return an error, or
abort the process via a panicking unwrap. -/
inductive Outcome (α : Type) where
  | ok (val : α)
  | err (msg : String)
  | panic
  deriving DecidableEq, Repr

/-- The value of a successful outcome, if any. -/
def Outcome.toOption {α : Type} : Outcome α → Option α
  | .ok v => some v
  | _ => none

/-- True exactly for the panic outcome. -/
def Outcome.isPanic {α : Type} : Outcome α → Bool
  | .panic => true
  | _ => false

/-- Embeds Rust's `i64::from_str`: an optional sign, then at least one
decimal digit, nothing else, and the value must fit in an i64. -/
def parseI64Digits (sign : Int) (ds : List Char) : Option Int :=
  if ds.isEmpty then none
  else if ds.all Char.isDigit then
    let v : Int := sign * (digitsToNat ds : Int)
    if -9223372036854775808 ≤ v ∧ v ≤ 9223372036854775807 then some v else none
  else none

/-- Embeds `duration_str.parse::<i64>()` on the full text. -/
def parseI64 (cs : List Char) : Option Int :=
  match cs with
  | [] => none
  | c :: rest =>
    if c = '+' then parseI64Digits 1 rest
    else if c = '-' then parseI64Digits (-1) rest
    else parseI64Digits 1 cs

/- ********************************************************************** -/
/- xspf_parser.rs -/

namespace XspfParser

/-- Embeds `struct TrackDuration(i64)` of xspf_parser.rs: a millisecond
count. -/
structure TrackDuration where
  ms : Int
  deriving DecidableEq, Repr

/-- Embeds `enum TrackType` of xspf_parser.rs. -/
inductive TrackType where
  | UnknownType
  | ViolinLayering
  | MuseScore
  | Piano
  | Voice
  deriving DecidableEq, Repr

/-- Embeds `enum TrackExtension` of xspf_parser.rs: unlike the
track_name_info.rs enum there is no Unknown variant and no mkv. -/
inductive TrackExtension where
  | Placeholder
  | mp3
  | flac
  | ogg
  | m4a
  | mp4
  deriving DecidableEq, Repr

/-- Embeds `impl FromStr for TrackExtension` of xspf_parser.rs: a
case-sensitive match against the five recognized names; everything else is
the error "Unknown extension". -/
def TrackExtension.from_str (s : String) : Except String TrackExtension :=
  if s = "mp3" then .ok .mp3
  else if s = "flac" then .ok .flac
  else if s = "ogg" then .ok .ogg
  else if s = "m4a" then .ok .m4a
  else if s = "mp4" then .ok .mp4
  else .error "Unknown extension"

/-- Embeds `struct FilenameInfoComponents` of xspf_parser.rs. -/
structure FilenameInfoComponents where
  track_type : TrackType
  index : Int
  name : String
  extn : TrackExtension
  deriving DecidableEq, Repr

/-- Embeds `FilenameInfoComponents::from_file_stem` of xspf_parser.rs: its
own violin-layering pattern (mandatory title), the shared muse-score
pattern, and a fallback whose index is 1 (not 0 as in track_name_info.rs). -/
def FilenameInfoComponents.from_file_stem (filename : String) : FilenameInfoComponents :=
  match xvlnCaptures filename.data with
  | some vcap =>
    { track_type := .ViolinLayering
    , index := parseI32OrDefault vcap.1
    , name := String.mk vcap.2
    , extn := .Placeholder }
  | none =>
    match msCaptures filename.data with
    | some mcap =>
      { track_type := .MuseScore
      , index := parseI32OrDefault mcap.index
      , name := String.mk mcap.id
      , extn := .Placeholder }
    | none =>
      { track_type := .UnknownType
      , index := 1
      , name := filename
      , extn := .Placeholder }

/-- Embeds `FilenameInfoComponents::new` of xspf_parser.rs: the unwraps on
`file_stem`, `extension` and the extension parse are modelled by `none`;
with this module's case-sensitive closed `from_str`, any extension outside
the five recognized lowercase names also panics. -/
def FilenameInfoComponents.new (filename : String) : Option FilenameInfoComponents :=
  match fileNameOf filename.data with
  | none => none
  | some f =>
    match (splitAtLastDot f).2 with
    | none => none
    | some e =>
      match TrackExtension.from_str (String.mk e) with
      | .ok extn =>
        some { FilenameInfoComponents.from_file_stem (String.mk (splitAtLastDot f).1) with extn := extn }
      | .error _ => none

/-- Embeds `struct Track` of xspf_parser.rs. -/
structure Track where
  path : String
  filename : String
  date : String
  duration : Option TrackDuration
  info : FilenameInfoComponents
  deriving DecidableEq, Repr

/-- Embeds `Track::from_filepath`: the raw path is stored unmodified, the
last slash-separated segment becomes the filename, the second-to-last the
date; the two `pop().unwrap()` calls and the FilenameInfoComponents
constructor can panic. The split always yields at least one segment, so
only a path with no slash can fail the second pop. -/
def Track.from_filepath (path : String) : Outcome Track :=
  match (splitSlash path.data).reverse with
  | [] => .panic
  | [_] => .panic
  | f :: d :: _ =>
    match FilenameInfoComponents.new (String.mk f) with
    | some fic =>
      .ok { path := path
          , filename := String.mk f
          , date := String.mk d
          , duration := none
          , info := fic }
    | none => .panic

/-- Embeds `Track::from_uri`: the URI must begin with the literal
"file:///"; the prefixed part is stripped and the rest delegated to
`from_filepath`; anything else is the classified unsupported-URI error. -/
def Track.from_uri (uri : String) : Outcome Track :=
  match chopLeading ("file:///").data uri.data with
  | some rest => Track.from_filepath (String.mk rest)
  | none => .err "Unsupported URI - Must start with 'file:///'"

/-- The duration the `Track::from_xml_elem` success path attaches: present
exactly when a duration child exists and its text parses as an i64. -/
def durationFromElem (e : Element) : Option TrackDuration :=
  match e.children.find? (fun x => x.name == "duration") with
  | some d => (parseI64 d.text.data).map TrackDuration.mk
  | none => none

/-- Embeds `Track::from_xml_elem`: without a location child the element is
rejected with the skip error; otherwise the location text goes through
`from_uri`, and on success the optional duration is attached (a missing or
unparsable duration is not an error). -/
def Track.from_xml_elem (e_track : Element) : Outcome Track :=
  match e_track.children.find? (fun x => x.name == "location") with
  | none => .err "Element skipped as no location info found"
  | some l =>
    match Track.from_uri l.text with
    | .ok t => .ok { t with duration := durationFromElem e_track }
    | .err m => .err m
    | .panic => .panic

/-- Embeds `struct XspfPlaylist` of xspf_parser.rs. -/
structure XspfPlaylist where
  tracks : List Track
  title : Option String
  deriving DecidableEq, Repr

/-- State of the mutable locals of `XspfPlaylist::from_xml_tree`'s loop. -/
structure LoopState where
  tracklist : List Track
  title : Option String
  deriving DecidableEq, Repr

/-- Embeds the inner `for e_track in e_section.children()` loop of
`from_xml_tree`: tracks whose construction succeeds are appended in order,
erroring elements are skipped, a panicking element aborts everything. -/
def trackLoop : List Track → List Element → Option (List Track)
  | acc, [] => some acc
  | acc, e :: es =>
    match Track.from_xml_elem e with
    | .ok t => trackLoop (acc ++ [t]) es
    | .err _ => trackLoop acc es
    | .panic => none

/-- Embeds one iteration of the outer section loop of `from_xml_tree`: a
title element records its text concatenated with " - " and the playlist's
source filename, a trackList element runs the inner track loop, anything
else is ignored. -/
def sectionStep (fn : String) (acc : Outcome LoopState) (e : Element) : Outcome LoopState :=
  match acc with
  | .ok st =>
    if e.name == "title" then .ok ⟨st.tracklist, some (e.text ++ " - " ++ fn)⟩
    else if e.name == "trackList" then
      match trackLoop st.tracklist e.children with
      | some l => .ok ⟨l, st.title⟩
      | none => .panic
    else .ok st
  | a => a

/-- Embeds `XspfPlaylist::from_xml_tree`: fold the section loop over the
root's children starting from an empty track list and no title. -/
def XspfPlaylist.from_xml_tree (root : Element) (filename : String) : Outcome XspfPlaylist :=
  match root.children.foldl (sectionStep filename) (.ok ⟨[], none⟩) with
  | .ok st => .ok ⟨st.tracklist, st.title⟩
  | .err m => .err m
  | .panic => .panic

/-- Embeds `XspfPlaylist::len`. -/
def XspfPlaylist.len (pl : XspfPlaylist) : Nat :=
  pl.tracks.length

/-- Result of the total-duration query: the summed duration and the tally
of tracks that had none. -/
structure TotalDurationResult where
  duration : TrackDuration
  uncounted : Nat
  deriving DecidableEq, Repr

/-- Modelled from the spec: main.rs calls `xspf.total_duration()` but the
method's definition is not among the source files. Per the spec it is a
simple fold over the tracks: a track lacking a duration increments the
uncounted tally and contributes nothing, a track with a duration adds its
millisecond value to the sum. -/
def XspfPlaylist.total_duration (pl : XspfPlaylist) : TotalDurationResult :=
  pl.tracks.foldl
    (fun acc t =>
      match t.duration with
      | some d => { acc with duration := ⟨acc.duration.ms + d.ms⟩ }
      | none => { acc with uncounted := acc.uncounted + 1 })
    ⟨⟨0⟩, 0⟩

/-- Modelled from the spec: main.rs calls `xspf.track_index_width()` but
the method's definition is not among the source files. Per the spec it is
the fixed-policy minimum digit width for zero-padding every track's
1-based ordinal: 2 digits for at most 99 tracks, 3 for 100 through 999,
4 beyond. -/
def XspfPlaylist.track_index_width (pl : XspfPlaylist) : Nat :=
  if pl.len ≤ 99 then 2
  else if pl.len ≤ 999 then 3
  else 4

end XspfParser

/- ********************************************************************** -/
/- Derived definitions used by the statements below -/

/-- The six lowercase names the track_name_info.rs extension match
recognizes. -/
def recognizedLower (l : String) : Bool :=
  (l == "mp3") || (l == "flac") || (l == "ogg") || (l == "m4a") ||
  (l == "mp4") || (l == "mkv")

/-- The track elements of a document root: the children of every
"trackList" section, in document order. -/
def trackElems (root : Element) : List Element :=
  (root.children.filter (fun e => e.name == "trackList")).flatMap Element.children

/-- True when no track element of the document makes track construction
panic (as opposed to returning the recoverable skip error). -/
def tracksNoPanic (root : Element) : Bool :=
  (trackElems root).all (fun e => !((XspfParser.Track.from_xml_elem e).isPanic))

/-- The last "title" element of a section list, if any — the one whose text
the from_xml_tree loop leaves recorded. -/
def lastTitle : List Element → Option Element
  | [] => none
  | e :: es =>
    match lastTitle es with
    | some t => some t
    | none => if e.name == "title" then some e else none

/-- The tracks the section loop collects: children of "trackList" sections
in order, keeping exactly the successful constructions. -/
def sectionTracks (sections : List Element) : List XspfParser.Track :=
  (sections.flatMap (fun e => if e.name == "trackList" then e.children else [])).filterMap
    (fun e => (XspfParser.Track.from_xml_elem e).toOption)

/-- A throwaway track value for building concrete playlists of a given
length in examples. -/
def blankTrack : XspfParser.Track :=
  ⟨"", "", "", none, ⟨.UnknownType, 1, "", .Placeholder⟩⟩

/- ********************************************************************** -/
/- Helper lemmas -/

/-- Lowercasing maps the empty string, and only it, to the empty string. -/
theorem rustLowercase_eq_empty {s : String} : rustLowercase s = "" ↔ s = "" := by
  cases s with
  | mk l =>
    constructor
    · intro h
      have h2 : l.map Char.toLower = [] := congrArg String.data h
      have h3 : l = [] := by simpa using h2
      simp [h3]
    · intro h
      rw [h]
      rfl

/-- A non-empty string always classifies successfully: every branch of the
lowercased match except the empty-string branch returns Ok. -/
theorem tniFromStrTotal (s : String) (hs : s ≠ "") :
    ∃ e, TrackNameInfo.TrackExtension.from_str s = .ok e := by
  unfold TrackNameInfo.TrackExtension.from_str
  split_ifs with h1 h2 h3 h4 h5 h6 h7
  · exact ⟨_, rfl⟩
  · exact ⟨_, rfl⟩
  · exact ⟨_, rfl⟩
  · exact ⟨_, rfl⟩
  · exact ⟨_, rfl⟩
  · exact ⟨_, rfl⟩
  · exact absurd (rustLowercase_eq_empty.mp h7) hs
  · exact ⟨_, rfl⟩

/- ********************************************************************** -/
/- Claims C1 - C3 -/

/-- C1: for every stem on which neither recognizer matches, from_file_stem
falls through to TrackType UnknownType, sequence index 0, and a descriptive
name equal to the entire input stem unchanged (the Placeholder extension is
the stub value the caller later overwrites); in particular this covers the
stem "randomfile" of the claim's example. -/
theorem c1_decompose_fallback (stem : String)
    (hv : vlnCaptures stem.data = none) (hm : msCaptures stem.data = none) :
    TrackNameInfo.FilenameInfoComponents.from_file_stem stem =
      ⟨.UnknownType, 0, stem, .Placeholder⟩ := by
  unfold TrackNameInfo.FilenameInfoComponents.from_file_stem
  rw [hv, hm]

/-- Witness for C1 at the claim's own example: neither recognizer matches
the stem "randomfile", and decomposition yields Unknown, index 0 and the
stem itself as the name. -/
theorem c1_decompose_fallback_witness :
    vlnCaptures ("randomfile").data = none ∧
    msCaptures ("randomfile").data = none ∧
    TrackNameInfo.FilenameInfoComponents.from_file_stem "randomfile" =
      ⟨.UnknownType, 0, "randomfile", .Placeholder⟩ :=
  ⟨rfl, rfl, c1_decompose_fallback "randomfile" rfl rfl⟩

/-- C2: whenever the violin-layering recognizer matches a stem, the result
is TrackType ViolinLayering, the index is the i32 parse of the digit
capture, and the name is the title capture (or the sentinel "<Untitled>"
when the optional title group is absent); the variant-letter capture is
matched but discarded, so the result is built from the digit and title
captures alone. The claim's two examples are included: the variant letter
of "v05L-wild_west" reaches neither the index nor the name, and the
title-less "vln_improv_01" gets the sentinel name. -/
theorem c2_decompose_violin :
    (∀ (stem : String) (caps : VlnCaps), vlnCaptures stem.data = some caps →
      TrackNameInfo.FilenameInfoComponents.from_file_stem stem =
        ⟨.ViolinLayering, parseI32OrDefault caps.index,
         (caps.id.map String.mk).getD "<Untitled>", .Placeholder⟩) ∧
    TrackNameInfo.FilenameInfoComponents.from_file_stem "v05L-wild_west" =
      ⟨.ViolinLayering, 5, "wild_west", .Placeholder⟩ ∧
    TrackNameInfo.FilenameInfoComponents.from_file_stem "vln_improv_01" =
      ⟨.ViolinLayering, 1, "<Untitled>", .Placeholder⟩ := by
  refine ⟨?_, rfl, rfl⟩
  intro stem caps h
  unfold TrackNameInfo.FilenameInfoComponents.from_file_stem
  rw [h]

/-- Witness for C2: the universal part applied to the concrete stem
"v05L-wild_west", whose captures are the digits "05" and the title
"wild_west". -/
theorem c2_decompose_violin_witness :
    TrackNameInfo.FilenameInfoComponents.from_file_stem "v05L-wild_west" =
      ⟨.ViolinLayering, parseI32OrDefault ("05").data,
       ((some ("wild_west").data).map String.mk).getD "<Untitled>", .Placeholder⟩ :=
  c2_decompose_violin.1 "v05L-wild_west" ⟨("05").data, some ("wild_west").data⟩ rfl

/-- C3: extension classification is total on non-empty strings; for a
string whose lowercasing lands in the recognized set, classification
agrees with classifying the lowercased string (case-insensitivity),
exemplified by "MP3" vs "mp3"; every non-empty string outside the set
yields Unknown carrying exactly the original string, casing preserved;
and rendering an Unknown back to a string is the identity on the payload. -/
theorem c3_extension_classification :
    (∀ s : String, s ≠ "" → ∃ e, TrackNameInfo.TrackExtension.from_str s = .ok e) ∧
    (∀ s : String, recognizedLower (rustLowercase s) = true →
      TrackNameInfo.TrackExtension.from_str s =
        TrackNameInfo.TrackExtension.from_str (rustLowercase s)) ∧
    TrackNameInfo.TrackExtension.from_str "MP3" =
      TrackNameInfo.TrackExtension.from_str "mp3" ∧
    (∀ s : String, s ≠ "" → recognizedLower (rustLowercase s) = false →
      TrackNameInfo.TrackExtension.from_str s = .ok (.Unknown s)) ∧
    (∀ s : String, (TrackNameInfo.TrackExtension.Unknown s).to_string = s) := by
  refine ⟨tniFromStrTotal, ?_, rfl, ?_, fun s => rfl⟩
  · intro s h
    simp only [recognizedLower, Bool.or_eq_true, beq_iff_eq] at h
    rcases h with ((((h | h) | h) | h) | h) | h <;>
      (unfold TrackNameInfo.TrackExtension.from_str; rw [h]; rfl)
  · intro s hne h
    simp only [recognizedLower, Bool.or_eq_false_iff, beq_eq_false_iff_ne, ne_eq] at h
    obtain ⟨⟨⟨⟨⟨h1, h2⟩, h3⟩, h4⟩, h5⟩, h6⟩ := h
    unfold TrackNameInfo.TrackExtension.from_str
    rw [if_neg h1, if_neg h2, if_neg h3, if_neg h4, if_neg h5, if_neg h6,
        if_neg (fun hh => hne (rustLowercase_eq_empty.mp hh))]

/-- Witness for C3 at concrete inputs: totality at "AIFF",
case-insensitive agreement at "Mp3", Unknown payload preservation at
"AIFF", and the Unknown round trip at "X". -/
theorem c3_extension_classification_witness :
    (∃ e, TrackNameInfo.TrackExtension.from_str "AIFF" = .ok e) ∧
    TrackNameInfo.TrackExtension.from_str "Mp3" =
      TrackNameInfo.TrackExtension.from_str (rustLowercase "Mp3") ∧
    TrackNameInfo.TrackExtension.from_str "AIFF" = .ok (.Unknown "AIFF") ∧
    (TrackNameInfo.TrackExtension.Unknown "X").to_string = "X" :=
  ⟨c3_extension_classification.1 "AIFF" (by decide),
   c3_extension_classification.2.1 "Mp3" (by decide),
   c3_extension_classification.2.2.2.1 "AIFF" (by decide) (by decide),
   c3_extension_classification.2.2.2.2 "X"⟩

/-- Appending distributes over the underlying character lists. -/
theorem dataAppend (s t : String) : (s ++ t).data = s.data ++ t.data := by
  cases s
  cases t
  rfl

/-- Removing a leading literal from a string that carries it succeeds and
returns the remainder. -/
theorem chopLeading_append (xs ys : List Char) : chopLeading xs (xs ++ ys) = some ys := by
  induction xs with
  | nil => rfl
  | cons c cs ih => simp [chopLeading, ih]

/-- Without a proper extension, the track_name_info.rs constructor reaches
an unwrap on a missing or empty extension and panics. -/
theorem tniNewNoneOfNoExt (f : String) (h : hasProperExt f.data = false) :
    TrackNameInfo.FilenameInfoComponents.new f = none := by
  unfold TrackNameInfo.FilenameInfoComponents.new
  cases hf : fileNameOf f.data with
  | none => simp [hf]
  | some g =>
    have hg : g = f.data := by
      unfold fileNameOf at hf
      split at hf
      · cases hf
      · exact (Option.some.inj hf).symm
    subst hg
    unfold hasProperExt at h
    cases he : (splitAtLastDot f.data).2 with
    | none => simp [hf, he]
    | some e =>
      rw [he] at h
      have hee : e = [] := by simpa using h
      subst hee
      simp [hf, he]
      rfl

/-- With a proper extension, the track_name_info.rs constructor always
succeeds: the non-empty extension string classifies (possibly as Unknown)
and every unwrap goes through. -/
theorem tniNewSomeOfExt (f : String) (h : hasProperExt f.data = true) :
    (TrackNameInfo.FilenameInfoComponents.new f).isSome = true := by
  unfold hasProperExt at h
  cases he : (splitAtLastDot f.data).2 with
  | none => rw [he] at h; cases h
  | some e =>
    rw [he] at h
    have hee : e ≠ [] := by simpa using h
    have hne1 : f.data ≠ [] := by
      intro hnil
      rw [hnil] at he
      exact Option.noConfusion he
    have hne2 : f.data ≠ ['.'] := by
      intro hone
      rw [hone] at he
      exact Option.noConfusion he
    have hne3 : f.data ≠ ['.', '.'] := by
      intro htwo
      rw [htwo] at he
      exact hee (Option.some.inj he).symm
    have hf : fileNameOf f.data = some f.data := by
      unfold fileNameOf
      rw [if_neg ?_]
      simp [List.isEmpty_iff, hne1, hne2, hne3]
    obtain ⟨x, hx⟩ :=
      tniFromStrTotal (String.mk e) (fun hh => hee (congrArg String.data hh))
    unfold TrackNameInfo.FilenameInfoComponents.new
    simp [hf, he, hx]

/-- Without a proper extension on the file name, the xspf_parser.rs
constructor panics as well (its extension unwrap, or the unwrap of its
closed case-sensitive extension parse, fails). -/
theorem xpNewNoneOfNoExt (f : String) (h : hasProperExt f.data = false) :
    XspfParser.FilenameInfoComponents.new f = none := by
  unfold XspfParser.FilenameInfoComponents.new
  cases hf : fileNameOf f.data with
  | none => simp [hf]
  | some g =>
    have hg : g = f.data := by
      unfold fileNameOf at hf
      split at hf
      · cases hf
      · exact (Option.some.inj hf).symm
    subst hg
    unfold hasProperExt at h
    cases he : (splitAtLastDot f.data).2 with
    | none => simp [hf, he]
    | some e =>
      rw [he] at h
      have hee : e = [] := by simpa using h
      subst hee
      simp [hf, he]
      rfl

/-- A path whose last slash-separated segment has no proper extension makes
Track::from_filepath panic inside the FilenameInfoComponents constructor. -/
theorem fromFilepathPanicOfNoExt (p : String) (f d : List Char) (rest : List (List Char))
    (h : (splitSlash p.data).reverse = f :: d :: rest) (hf : hasProperExt f = false) :
    XspfParser.Track.from_filepath p = .panic := by
  unfold XspfParser.Track.from_filepath
  simp only [h, xpNewNoneOfNoExt (String.mk f) hf]

/-- On a URI built from the file scheme literal and a path, from_uri strips
the literal and delegates to from_filepath. -/
theorem fromUriAppend (p : String) :
    XspfParser.Track.from_uri ("file:///" ++ p) = XspfParser.Track.from_filepath p := by
  unfold XspfParser.Track.from_uri
  rw [dataAppend, chopLeading_append]

/- ********************************************************************** -/
/- Claim C10 -/

/-- C10: the filename constructor is total exactly on filenames carrying a
non-empty dot-separated extension — on a single path component its success
coincides with the presence of a proper extension, so a dotless name such
as "randomfile" or one ending in a bare dot panics on the extension
unwrap; Track::from_filepath and Track::from_uri inherit the panic when
the path's last segment lacks a proper extension; and the stem-level
decomposition from_file_stem is itself total, always returning a stub
whose extension field is the Placeholder. -/
theorem c10_new_totality :
    (∀ f : String, '/' ∉ f.data →
      (TrackNameInfo.FilenameInfoComponents.new f).isSome = hasProperExt f.data) ∧
    (∀ (p : String) (f d : List Char) (rest : List (List Char)),
      (splitSlash p.data).reverse = f :: d :: rest → hasProperExt f = false →
      XspfParser.Track.from_filepath p = .panic) ∧
    (∀ (p : String) (f d : List Char) (rest : List (List Char)),
      (splitSlash p.data).reverse = f :: d :: rest → hasProperExt f = false →
      XspfParser.Track.from_uri ("file:///" ++ p) = .panic) ∧
    (∀ stem : String,
      (TrackNameInfo.FilenameInfoComponents.from_file_stem stem).extn = .Placeholder) := by
  refine ⟨?_, ?_, ?_, ?_⟩
  · intro f _
    cases hpe : hasProperExt f.data with
    | false => rw [tniNewNoneOfNoExt f hpe]; rfl
    | true => exact tniNewSomeOfExt f hpe
  · intro p f d rest h hf
    exact fromFilepathPanicOfNoExt p f d rest h hf
  · intro p f d rest h hf
    rw [fromUriAppend]
    exact fromFilepathPanicOfNoExt p f d rest h hf
  · intro stem
    unfold TrackNameInfo.FilenameInfoComponents.from_file_stem
    cases vlnCaptures stem.data with
    | some vcap => rfl
    | none =>
      cases msCaptures stem.data with
      | some mcap => rfl
      | none => rfl

/-- Witness for C10: the extension-less "randomfile" makes the constructor
panic while "a.mp3" succeeds; the path "d/randomfile" and the URI built
from it panic through from_filepath and from_uri; and the stub of an
arbitrary stem carries the Placeholder extension. -/
theorem c10_new_totality_witness :
    (TrackNameInfo.FilenameInfoComponents.new "randomfile").isSome =
      hasProperExt ("randomfile").data ∧
    (TrackNameInfo.FilenameInfoComponents.new "a.mp3").isSome =
      hasProperExt ("a.mp3").data ∧
    XspfParser.Track.from_filepath "d/randomfile" = .panic ∧
    XspfParser.Track.from_uri ("file:///" ++ "d/randomfile") = .panic ∧
    (TrackNameInfo.FilenameInfoComponents.from_file_stem "x").extn = .Placeholder :=
  ⟨c10_new_totality.1 "randomfile" (by decide),
   c10_new_totality.1 "a.mp3" (by decide),
   c10_new_totality.2.1 "d/randomfile" ("randomfile").data ("d").data [] rfl rfl,
   c10_new_totality.2.2.1 "d/randomfile" ("randomfile").data ("d").data [] rfl rfl,
   c10_new_totality.2.2.2 "x"⟩

/-- Track::from_filepath never returns an error value: it either succeeds
or panics. -/
theorem fromFilepathNeErr (p m : String) : XspfParser.Track.from_filepath p ≠ .err m := by
  unfold XspfParser.Track.from_filepath
  cases hs : (splitSlash p.data).reverse with
  | nil => simp
  | cons f rest =>
    cases rest with
    | nil => simp
    | cons d rest2 =>
      cases hn : XspfParser.FilenameInfoComponents.new (String.mk f) with
      | none => simp [hn]
      | some fic => simp [hn]

/- ********************************************************************** -/
/- Claim C5 -/

/-- C5: from_xml_elem returns an error exactly when the track element has
no location child, or the location text does not begin with the literal
"file:///" (the prefix strip fails); and whenever the location URI builds a
track, the result is that track with the best-effort duration attached —
which is unset when the duration child is absent or its text does not
parse as an i64. -/
theorem c5_from_xml_elem (e : Element) :
    ((∃ m, XspfParser.Track.from_xml_elem e = .err m) ↔
      (e.children.find? (fun x => x.name == "location") = none ∨
       ∃ l, e.children.find? (fun x => x.name == "location") = some l ∧
            chopLeading ("file:///").data l.text.data = none)) ∧
    (∀ l t, e.children.find? (fun x => x.name == "location") = some l →
      XspfParser.Track.from_uri l.text = .ok t →
      XspfParser.Track.from_xml_elem e =
        .ok { t with duration := XspfParser.durationFromElem e }) ∧
    (e.children.find? (fun x => x.name == "duration") = none →
      XspfParser.durationFromElem e = none) ∧
    (∀ d, e.children.find? (fun x => x.name == "duration") = some d →
      parseI64 d.text.data = none → XspfParser.durationFromElem e = none) := by
  refine ⟨?_, ?_, ?_, ?_⟩
  · cases hloc : e.children.find? (fun x => x.name == "location") with
    | none => simp [XspfParser.Track.from_xml_elem, hloc]
    | some l =>
      cases hc : chopLeading ("file:///").data l.text.data with
      | none =>
        simp [XspfParser.Track.from_xml_elem, hloc, XspfParser.Track.from_uri, hc]
      | some rest =>
        cases hfp : XspfParser.Track.from_filepath (String.mk rest) with
        | ok t =>
          simp [XspfParser.Track.from_xml_elem, hloc, XspfParser.Track.from_uri, hc, hfp]
        | err m => exact absurd hfp (fromFilepathNeErr (String.mk rest) m)
        | panic =>
          simp [XspfParser.Track.from_xml_elem, hloc, XspfParser.Track.from_uri, hc, hfp]
  · intro l t hloc hu
    simp [XspfParser.Track.from_xml_elem, hloc, hu]
  · intro h
    simp [XspfParser.durationFromElem, h]
  · intro d hd hp
    simp [XspfParser.durationFromElem, hd, hp]

/-- Witness for C5: a concrete track element with a file-scheme location
and a parsable duration; the success branch attaches the 1000 ms
duration. -/
theorem c5_from_xml_elem_witness :
    XspfParser.Track.from_xml_elem
        (Element.mk "track" ""
          [Element.mk "location" "file:///d/v01-a.mp3" [],
           Element.mk "duration" "1000" []]) =
      .ok { XspfParser.Track.mk "d/v01-a.mp3" "v01-a.mp3" "d" none
              ⟨.ViolinLayering, 1, "a", .mp3⟩ with
            duration := XspfParser.durationFromElem
              (Element.mk "track" ""
                [Element.mk "location" "file:///d/v01-a.mp3" [],
                 Element.mk "duration" "1000" []]) } :=
  (c5_from_xml_elem
      (Element.mk "track" ""
        [Element.mk "location" "file:///d/v01-a.mp3" [],
         Element.mk "duration" "1000" []])).2.1
    (Element.mk "location" "file:///d/v01-a.mp3" [])
    (XspfParser.Track.mk "d/v01-a.mp3" "v01-a.mp3" "d" none ⟨.ViolinLayering, 1, "a", .mp3⟩)
    rfl rfl

/-- The inner track loop, when no element panics, appends exactly the
successful constructions in order. -/
theorem trackLoopSpec :
    ∀ (es : List Element) (acc : List XspfParser.Track),
    (∀ e ∈ es, XspfParser.Track.from_xml_elem e ≠ .panic) →
    XspfParser.trackLoop acc es =
      some (acc ++ es.filterMap (fun e => (XspfParser.Track.from_xml_elem e).toOption)) := by
  intro es
  induction es with
  | nil => intro acc h; simp [XspfParser.trackLoop]
  | cons e es ih =>
    intro acc h
    have he := h e (by simp)
    have hes : ∀ x ∈ es, XspfParser.Track.from_xml_elem x ≠ .panic :=
      fun x hx => h x (by simp [hx])
    cases hx : XspfParser.Track.from_xml_elem e with
    | ok t =>
      simp only [XspfParser.trackLoop, hx]
      rw [ih (acc ++ [t]) hes]
      simp [hx, Outcome.toOption]
    | err m =>
      simp only [XspfParser.trackLoop, hx]
      rw [ih acc hes]
      simp [hx, Outcome.toOption]
    | panic => exact absurd hx he

/-- The section fold never recovers from a panic. -/
theorem sectionFoldPanic (sections : List Element) (fn : String) :
    sections.foldl (XspfParser.sectionStep fn) .panic = .panic := by
  induction sections with
  | nil => rfl
  | cons e es ih => simpa [XspfParser.sectionStep] using ih

/-- The section fold never recovers from an error value either. -/
theorem sectionFoldErr (sections : List Element) (fn : String) (m : String) :
    sections.foldl (XspfParser.sectionStep fn) (.err m) = .err m := by
  induction sections with
  | nil => rfl
  | cons e es ih => simpa [XspfParser.sectionStep] using ih

/-- Main characterization of the section fold when no track element
panics: the collected tracks are the accumulated ones followed by the
successful constructions of all trackList children in order, and the title
is that of the last title section, if any. -/
theorem sectionFoldSpec :
    ∀ (sections : List Element) (fn : String) (st : XspfParser.LoopState),
    (∀ e ∈ sections, (e.name == "trackList") = true →
      ∀ c ∈ e.children, XspfParser.Track.from_xml_elem c ≠ .panic) →
    sections.foldl (XspfParser.sectionStep fn) (.ok st) =
      .ok ⟨st.tracklist ++ sectionTracks sections,
           (lastTitle sections).elim st.title (fun t => some (t.text ++ " - " ++ fn))⟩ := by
  intro sections
  induction sections with
  | nil => intro fn st h; simp [sectionTracks, lastTitle]
  | cons e es ih =>
    intro fn st h
    have hes : ∀ x ∈ es, (x.name == "trackList") = true →
        ∀ c ∈ x.children, XspfParser.Track.from_xml_elem c ≠ .panic :=
      fun x hx => h x (by simp [hx])
    rw [List.foldl_cons]
    by_cases ht : (e.name == "title") = true
    · have hte : e.name = "title" := by rwa [beq_iff_eq] at ht
      have htrne : e.name ≠ "trackList" := by rw [hte]; decide
      rw [show XspfParser.sectionStep fn (.ok st) e =
            .ok ⟨st.tracklist, some (e.text ++ " - " ++ fn)⟩ by
          simp [XspfParser.sectionStep, ht]]
      rw [ih fn ⟨st.tracklist, some (e.text ++ " - " ++ fn)⟩ hes]
      have hsec : sectionTracks (e :: es) = sectionTracks es := by
        simp [sectionTracks, htrne]
      rw [hsec]
      cases hl : lastTitle es with
      | some t2 => simp [lastTitle, hl]
      | none => simp [lastTitle, hl, ht]
    · by_cases htr : (e.name == "trackList") = true
      · have htre : e.name = "trackList" := by rwa [beq_iff_eq] at htr
        have hch : ∀ c ∈ e.children, XspfParser.Track.from_xml_elem c ≠ .panic :=
          h e (by simp) htr
        rw [show XspfParser.sectionStep fn (.ok st) e =
              .ok ⟨st.tracklist ++
                    e.children.filterMap
                      (fun c => (XspfParser.Track.from_xml_elem c).toOption),
                   st.title⟩ by
            simp [XspfParser.sectionStep, ht, htr, trackLoopSpec e.children st.tracklist hch]]
        rw [ih fn _ hes]
        have hsec : sectionTracks (e :: es) =
            e.children.filterMap (fun c => (XspfParser.Track.from_xml_elem c).toOption) ++
              sectionTracks es := by
          simp [sectionTracks, htre]
        rw [hsec]
        cases hl : lastTitle es with
        | some t2 => simp [lastTitle, hl]
        | none => simp [lastTitle, hl, ht, List.append_assoc]
      · have htrne : e.name ≠ "trackList" := by simpa using htr
        rw [show XspfParser.sectionStep fn (.ok st) e = .ok st by
            simp [XspfParser.sectionStep, ht, htr]]
        rw [ih fn st hes]
        have hsec : sectionTracks (e :: es) = sectionTracks es := by
          simp [sectionTracks, htrne]
        rw [hsec]
        cases hl : lastTitle es with
        | some t2 => simp [lastTitle, hl]
        | none => simp [lastTitle, hl, ht]

/-- Filtering on a name and flattening the children agrees with flattening
a conditional children selection. -/
theorem filterFlatMapEq (l : List Element) :
    (l.filter (fun e => e.name == "trackList")).flatMap Element.children =
      l.flatMap (fun e => if e.name == "trackList" then e.children else []) := by
  induction l with
  | nil => rfl
  | cons e es ih =>
    by_cases h : e.name = "trackList"
    · simp [List.filter_cons, h, ih]
    · simp [List.filter_cons, h, ih]

/- ********************************************************************** -/
/- Claim C4 -/

/-- C4: when no track element panics, from_xml_tree succeeds and the
playlist's tracks are exactly the trackList children whose construction
succeeds, in document order; erroring elements (for example those without
location data) are skipped without disturbing the rest. -/
theorem c4_playlist_collection (root : Element) (fn : String)
    (h : tracksNoPanic root = true) :
    ∃ pl, XspfParser.XspfPlaylist.from_xml_tree root fn = .ok pl ∧
      pl.tracks = (trackElems root).filterMap
        (fun e => (XspfParser.Track.from_xml_elem e).toOption) := by
  have hprop : ∀ e ∈ root.children, (e.name == "trackList") = true →
      ∀ c ∈ e.children, XspfParser.Track.from_xml_elem c ≠ .panic := by
    intro e he htr c hc
    have hmem : c ∈ trackElems root := by
      unfold trackElems
      exact List.mem_flatMap.mpr ⟨e, List.mem_filter.mpr ⟨he, htr⟩, hc⟩
    have hall := List.all_eq_true.mp h c hmem
    intro hpan
    rw [hpan] at hall
    simp [Outcome.isPanic] at hall
  have hfold := sectionFoldSpec root.children fn ⟨[], none⟩ hprop
  unfold XspfParser.XspfPlaylist.from_xml_tree
  rw [hfold]
  refine ⟨_, rfl, ?_⟩
  show [] ++ sectionTracks root.children = _
  rw [List.nil_append]
  unfold sectionTracks trackElems
  rw [filterFlatMapEq]

/-- Witness for C4: a concrete document whose trackList holds a good
track, a location-less track and another good track; the built playlist
keeps exactly the two good tracks, in order. -/
theorem c4_playlist_collection_witness :
    ∃ pl, XspfParser.XspfPlaylist.from_xml_tree
        (Element.mk "playlist" ""
          [Element.mk "trackList" ""
            [Element.mk "track" "" [Element.mk "location" "file:///d/v01-a.mp3" []],
             Element.mk "track" "" [Element.mk "duration" "99" []],
             Element.mk "track" "" [Element.mk "location" "file:///d/v02-b.mp3" []]]])
        "f.xspf" = .ok pl ∧
      pl.tracks = (trackElems
        (Element.mk "playlist" ""
          [Element.mk "trackList" ""
            [Element.mk "track" "" [Element.mk "location" "file:///d/v01-a.mp3" []],
             Element.mk "track" "" [Element.mk "duration" "99" []],
             Element.mk "track" "" [Element.mk "location" "file:///d/v02-b.mp3" []]]])).filterMap
        (fun e => (XspfParser.Track.from_xml_elem e).toOption) :=
  c4_playlist_collection
    (Element.mk "playlist" ""
      [Element.mk "trackList" ""
        [Element.mk "track" "" [Element.mk "location" "file:///d/v01-a.mp3" []],
         Element.mk "track" "" [Element.mk "duration" "99" []],
         Element.mk "track" "" [Element.mk "location" "file:///d/v02-b.mp3" []]]])
    "f.xspf" rfl

/-- Whenever the section fold completes successfully, the final title is
the last title section's text concatenated with " - " and the source
filename, or the initial title when no title section exists. -/
theorem sectionFoldOkTitle :
    ∀ (sections : List Element) (fn : String) (st0 st : XspfParser.LoopState),
    sections.foldl (XspfParser.sectionStep fn) (.ok st0) = .ok st →
    st.title = (lastTitle sections).elim st0.title (fun t => some (t.text ++ " - " ++ fn)) := by
  intro sections
  induction sections with
  | nil =>
    intro fn st0 st h
    rw [List.foldl_nil] at h
    injection h with h2
    rw [← h2]
    simp [lastTitle]
  | cons e es ih =>
    intro fn st0 st h
    rw [List.foldl_cons] at h
    by_cases ht : (e.name == "title") = true
    · rw [show XspfParser.sectionStep fn (.ok st0) e =
            .ok ⟨st0.tracklist, some (e.text ++ " - " ++ fn)⟩ by
          simp [XspfParser.sectionStep, ht]] at h
      have hti := ih fn _ st h
      cases hl : lastTitle es with
      | some t2 => rw [hl] at hti; simp [lastTitle, hl, hti]
      | none => rw [hl] at hti; simp [lastTitle, hl, ht, hti]
    · by_cases htr : (e.name == "trackList") = true
      · cases htl : XspfParser.trackLoop st0.tracklist e.children with
        | some l =>
          rw [show XspfParser.sectionStep fn (.ok st0) e = .ok ⟨l, st0.title⟩ by
              simp [XspfParser.sectionStep, ht, htr, htl]] at h
          have hti := ih fn _ st h
          cases hl : lastTitle es with
          | some t2 => rw [hl] at hti; simp [lastTitle, hl, hti]
          | none => rw [hl] at hti; simp [lastTitle, hl, ht, hti]
        | none =>
          rw [show XspfParser.sectionStep fn (.ok st0) e = .panic by
              simp [XspfParser.sectionStep, ht, htr, htl]] at h
          rw [sectionFoldPanic] at h
          exact Outcome.noConfusion h
      · rw [show XspfParser.sectionStep fn (.ok st0) e = .ok st0 by
            simp [XspfParser.sectionStep, ht, htr]] at h
        have hti := ih fn st0 st h
        cases hl : lastTitle es with
        | some t2 => rw [hl] at hti; simp [lastTitle, hl, hti]
        | none => rw [hl] at hti; simp [lastTitle, hl, ht, hti]

/- ********************************************************************** -/
/- Claim C6 (corrected) -/

/-- C6 counterexample: with a title element whose text is "My Playlist"
and the source filename "list.xspf", the data model records the title
"My Playlist - list.xspf" — the source filename is concatenated into the
recorded title, which therefore differs from the text as supplied. -/
theorem c6_title_concat_counterexample :
    XspfParser.XspfPlaylist.from_xml_tree
        (Element.mk "playlist" "" [Element.mk "title" "My Playlist" []]) "list.xspf" =
      .ok ⟨[], some "My Playlist - list.xspf"⟩ ∧
    ("My Playlist - list.xspf" : String) ≠ "My Playlist" :=
  ⟨rfl, by decide⟩

/-- C6 amended: the playlist's recorded title is the last title element's
text concatenated with " - " and the source filename (none when no title
element is present) — the concatenation happens in the data model itself,
inside from_xml_tree. -/
theorem c6_title_records_concatenation (root : Element) (fn : String)
    (pl : XspfParser.XspfPlaylist)
    (h : XspfParser.XspfPlaylist.from_xml_tree root fn = .ok pl) :
    pl.title = (lastTitle root.children).elim none (fun t => some (t.text ++ " - " ++ fn)) := by
  unfold XspfParser.XspfPlaylist.from_xml_tree at h
  cases hf : root.children.foldl (XspfParser.sectionStep fn) (.ok ⟨[], none⟩) with
  | ok st =>
    rw [hf] at h
    have htitle := sectionFoldOkTitle root.children fn ⟨[], none⟩ st hf
    injection h with h2
    rw [← h2]
    simpa using htitle
  | err m =>
    rw [hf] at h
    exact Outcome.noConfusion h
  | panic =>
    rw [hf] at h
    exact Outcome.noConfusion h

/-- Witness for the amended C6: a concrete document with one title element
whose text is "T"; the recorded title is "T - f.xspf". -/
theorem c6_title_records_concatenation_witness :
    (XspfParser.XspfPlaylist.mk [] (some "T - f.xspf")).title =
      (lastTitle (Element.mk "playlist" "" [Element.mk "title" "T" []]).children).elim none
        (fun t => some (t.text ++ " - " ++ "f.xspf")) :=
  c6_title_records_concatenation
    (Element.mk "playlist" "" [Element.mk "title" "T" []]) "f.xspf"
    ⟨[], some "T - f.xspf"⟩ rfl

/-- The duration fold, from an arbitrary starting sum and tally, adds the
milliseconds of the present durations and counts the absent ones. -/
theorem totalDurationFoldAux (ts : List XspfParser.Track) (a : Int) (u : Nat) :
    List.foldl
      (fun (acc : XspfParser.TotalDurationResult) (t : XspfParser.Track) =>
        match t.duration with
        | some d => { acc with duration := ⟨acc.duration.ms + d.ms⟩ }
        | none => { acc with uncounted := acc.uncounted + 1 })
      ⟨⟨a⟩, u⟩ ts =
    ⟨⟨a + ((ts.filterMap XspfParser.Track.duration).map XspfParser.TrackDuration.ms).sum⟩,
     u + (ts.filter (fun t => t.duration.isNone)).length⟩ := by
  induction ts generalizing a u with
  | nil => simp
  | cons t ts ih =>
    rw [List.foldl_cons]
    cases hd : t.duration with
    | some d =>
      simp only [hd]
      rw [ih]
      simp [hd, List.filterMap_cons, List.filter_cons, Int.add_assoc]
    | none =>
      simp only [hd]
      rw [ih]
      simp [hd, List.filterMap_cons, List.filter_cons]
      omega

/- ********************************************************************** -/
/- Claim C7 -/
/-- C7: over any playlist, total_duration returns the sum of the
millisecond values of every track that has a duration together with an
uncounted tally equal to the number of tracks lacking one; on durations
1000 ms, absent, 2000 ms it yields 3000 ms with one uncounted track. -/
theorem c7_total_duration :
    (∀ pl : XspfParser.XspfPlaylist,
      pl.total_duration =
        ⟨⟨((pl.tracks.filterMap XspfParser.Track.duration).map XspfParser.TrackDuration.ms).sum⟩,
         (pl.tracks.filter (fun t => t.duration.isNone)).length⟩) ∧
    XspfParser.XspfPlaylist.total_duration
        ⟨[{ blankTrack with duration := some ⟨1000⟩ },
          { blankTrack with duration := none },
          { blankTrack with duration := some ⟨2000⟩ }], none⟩ = ⟨⟨3000⟩, 1⟩ := by
  constructor
  · intro pl
    have haux := totalDurationFoldAux pl.tracks 0 0
    unfold XspfParser.XspfPlaylist.total_duration
    rw [haux]
    simp
  · rfl

/- ********************************************************************** -/
/- Claim C8 -/

/-- C8: track_index_width follows the fixed three-band policy on every
playlist — 2 digits for at most 99 tracks (the empty playlist included),
3 for 100 through 999, 4 beyond — shown here on the bands and on the
claim's concrete sizes 0, 99, 100 and 1000. -/
theorem c8_track_index_width :
    (∀ pl : XspfParser.XspfPlaylist, pl.len ≤ 99 → pl.track_index_width = 2) ∧
    (∀ pl : XspfParser.XspfPlaylist, 100 ≤ pl.len → pl.len ≤ 999 →
      pl.track_index_width = 3) ∧
    (∀ pl : XspfParser.XspfPlaylist, 1000 ≤ pl.len → pl.track_index_width = 4) ∧
    XspfParser.XspfPlaylist.track_index_width ⟨[], none⟩ = 2 ∧
    XspfParser.XspfPlaylist.track_index_width ⟨List.replicate 99 blankTrack, none⟩ = 2 ∧
    XspfParser.XspfPlaylist.track_index_width ⟨List.replicate 100 blankTrack, none⟩ = 3 ∧
    XspfParser.XspfPlaylist.track_index_width ⟨List.replicate 1000 blankTrack, none⟩ = 4 := by
  refine ⟨?_, ?_, ?_, ?_, ?_, ?_, ?_⟩
  · intro pl h
    unfold XspfParser.XspfPlaylist.track_index_width
    rw [if_pos h]
  · intro pl h1 h2
    unfold XspfParser.XspfPlaylist.track_index_width
    rw [if_neg (by omega), if_pos h2]
  · intro pl h
    unfold XspfParser.XspfPlaylist.track_index_width
    rw [if_neg (by omega), if_neg (by omega)]
  · rfl
  · simp only [XspfParser.XspfPlaylist.track_index_width, XspfParser.XspfPlaylist.len,
      List.length_replicate]
    norm_num
  · simp only [XspfParser.XspfPlaylist.track_index_width, XspfParser.XspfPlaylist.len,
      List.length_replicate]
    norm_num
  · simp only [XspfParser.XspfPlaylist.track_index_width, XspfParser.XspfPlaylist.len,
      List.length_replicate]
    norm_num

/-- Witness for C8: the three bands instantiated at playlists of 0, 100
and 1000 tracks. -/
theorem c8_track_index_width_witness :
    XspfParser.XspfPlaylist.track_index_width ⟨[], none⟩ = 2 ∧
    XspfParser.XspfPlaylist.track_index_width ⟨List.replicate 100 blankTrack, none⟩ = 3 ∧
    XspfParser.XspfPlaylist.track_index_width ⟨List.replicate 1000 blankTrack, none⟩ = 4 :=
  ⟨c8_track_index_width.1 ⟨[], none⟩
     (by simp only [XspfParser.XspfPlaylist.len, List.length_nil]; omega),
   c8_track_index_width.2.1 ⟨List.replicate 100 blankTrack, none⟩
     (by simp only [XspfParser.XspfPlaylist.len, List.length_replicate]; omega)
     (by simp only [XspfParser.XspfPlaylist.len, List.length_replicate]; omega),
   c8_track_index_width.2.2.1 ⟨List.replicate 1000 blankTrack, none⟩
     (by simp only [XspfParser.XspfPlaylist.len, List.length_replicate]; omega)⟩

/- ********************************************************************** -/
/- Claim C9 (corrected) -/

/-- C9 counterexample: from_filepath performs no percent-decoding — on a
path holding "%20" escapes the stored path is the raw input and the stored
filename still holds the escape, while the claim's decoded forms differ. -/
theorem c9_no_decoding_counterexample :
    XspfParser.Track.from_filepath "a%20b/c%20d/e%20f.mp3" =
      .ok ⟨"a%20b/c%20d/e%20f.mp3", "e%20f.mp3", "c%20d", none,
           ⟨.UnknownType, 1, "e%20f", .mp3⟩⟩ ∧
    ("a%20b/c%20d/e%20f.mp3" : String) ≠ "a b/c d/e f.mp3" ∧
    ("e%20f.mp3" : String) ≠ "e f.mp3" :=
  ⟨rfl, by decide, by decide⟩

/-- C9 amended: from_filepath stores the input path unchanged (no
percent-decoding of any escape table), the filename is the last
slash-separated segment of the raw input, the date the second-to-last,
and the duration starts unset. -/
theorem c9_raw_path_fields (p : String) (t : XspfParser.Track)
    (h : XspfParser.Track.from_filepath p = .ok t) :
    t.path = p ∧
    (∃ f d rest, (splitSlash p.data).reverse = f :: d :: rest ∧
      t.filename = String.mk f ∧ t.date = String.mk d) ∧
    t.duration = none := by
  unfold XspfParser.Track.from_filepath at h
  cases hs : (splitSlash p.data).reverse with
  | nil =>
    rw [hs] at h
    exact Outcome.noConfusion h
  | cons f rest =>
    cases rest with
    | nil =>
      rw [hs] at h
      exact Outcome.noConfusion h
    | cons d rest2 =>
      rw [hs] at h
      have h2 : (match XspfParser.FilenameInfoComponents.new (String.mk f) with
                 | some fic =>
                   Outcome.ok
                     (XspfParser.Track.mk p (String.mk f) (String.mk d) none fic)
                 | none => Outcome.panic) = Outcome.ok t := h
      cases hn : XspfParser.FilenameInfoComponents.new (String.mk f) with
      | none =>
        rw [hn] at h2
        exact Outcome.noConfusion h2
      | some fic =>
        rw [hn] at h2
        injection h2 with h3
        rw [← h3]
        exact ⟨rfl, ⟨f, d, rest2, rfl, rfl, rfl⟩, rfl⟩

/-- Witness for the amended C9: a concrete three-segment path is stored
raw, with its last two segments as filename and date and no duration. -/
theorem c9_raw_path_fields_witness :
    (XspfParser.Track.mk "aa/bb/cc.mp3" "cc.mp3" "bb" none
        ⟨.UnknownType, 1, "cc", .mp3⟩).path = "aa/bb/cc.mp3" ∧
    (∃ f d rest, (splitSlash ("aa/bb/cc.mp3").data).reverse = f :: d :: rest ∧
      (XspfParser.Track.mk "aa/bb/cc.mp3" "cc.mp3" "bb" none
        ⟨.UnknownType, 1, "cc", .mp3⟩).filename = String.mk f ∧
      (XspfParser.Track.mk "aa/bb/cc.mp3" "cc.mp3" "bb" none
        ⟨.UnknownType, 1, "cc", .mp3⟩).date = String.mk d) ∧
    (XspfParser.Track.mk "aa/bb/cc.mp3" "cc.mp3" "bb" none
        ⟨.UnknownType, 1, "cc", .mp3⟩).duration = none :=
  c9_raw_path_fields "aa/bb/cc.mp3"
    (XspfParser.Track.mk "aa/bb/cc.mp3" "cc.mp3" "bb" none ⟨.UnknownType, 1, "cc", .mp3⟩)
    rfl
